import Mathlib

/-!
Verification of the `cas` project-scaffolding CLI.

The development shallowly embeds the TypeScript sources:
  * `src/utils.ts`    — project-name validation and slugification
  * `src/args.ts`     — option resolution (`parseOptions`, `needsInteractiveMode`)
  * `src/template.ts` — the scaffold orchestrator and template-variable substitution

JavaScript strings are modelled as `List Char` (or Lean `String` where only
concatenation matters); the stateful orchestrator is modelled as a pure
function from an explicit `World` of external-call outcomes to a result
together with a trace of the performed actions.  Definitions come first,
then the theorems about them.
-/

namespace Cas

/-- Membership in `[a-z]` — a lowercase ASCII letter. -/
def isLowerAlpha (c : Char) : Bool := 97 ≤ c.toNat && c.toNat ≤ 122

/-- The character class `[a-z0-9-_]` used by `validateProjectName` and
`slugify` in `src/utils.ts`. -/
def isSlugChar (c : Char) : Bool :=
  isLowerAlpha c || (48 ≤ c.toNat && c.toNat ≤ 57) || c = '-' || c = '_'

/-- ASCII lowercasing, the behaviour of `String.prototype.toLowerCase` on the
ASCII range (the only range the naming grammar can accept). -/
def lowerChar (c : Char) : Char :=
  if 65 ≤ c.toNat && c.toNat ≤ 90 then Char.ofNat (c.toNat + 32) else c

/-- The regex `^[a-z][a-z0-9-_]*$` of `validateProjectName`. -/
def matchesPattern (l : List Char) : Bool :=
  match l with
  | [] => false
  | c :: t => isLowerAlpha c && t.all isSlugChar

/-- Message for an empty name (`src/utils.ts:76`). -/
def requiredMsg : String := "Project name is required"

/-- Message for an overlong name (`src/utils.ts:80`). -/
def tooLongMsg : String := "Project name must be 214 characters or less"

/-- Message for a name violating the pattern (`src/utils.ts:87`). -/
def patternMsg : String :=
  "Project name must start with a lowercase letter and contain only lowercase letters, numbers, hyphens, and underscores"

/-- Function `validateProjectName` from `src/utils.ts`: empty check, length check,
pattern check, in that order. -/
def validateProjectName (name : List Char) : Bool × Option String :=
  if name = [] then (false, some requiredMsg)
  else if name.length > 214 then (false, some tooLongMsg)
  else if matchesPattern name then (true, none)
  else (false, some patternMsg)

/-- Step 2: every character outside `[a-z0-9-_]` becomes a hyphen. -/
def replaceNonSlug : List Char → List Char
  | [] => []
  | c :: t => (if isSlugChar c then c else '-') :: replaceNonSlug t

/-- Step 3: remove the maximal leading run of non-letters. -/
def dropLeadingNonAlpha (l : List Char) : List Char :=
  l.dropWhile (fun c => !isLowerAlpha c)

/-- Step 4: collapse each maximal run of hyphens into a single hyphen.
The flag records whether a hyphen was just emitted. -/
def collapseHyphens : Bool → List Char → List Char
  | _, [] => []
  | prevH, c :: rest =>
      if c = '-' then
        if prevH then collapseHyphens true rest
        else '-' :: collapseHyphens true rest
      else c :: collapseHyphens false rest

/-- Step 5: remove a single trailing hyphen, if present. -/
def stripTrailingHyphen : List Char → List Char
  | [] => []
  | [c] => if c = '-' then [] else [c]
  | c :: rest => c :: stripTrailingHyphen rest

/-- Function `slugify` from `src/utils.ts`. -/
def slugify (l : List Char) : List Char :=
  stripTrailingHyphen (collapseHyphens false
    (dropLeadingNonAlpha (replaceNonSlug (l.map lowerChar))))

/-- Modelled from the spec's words (§4.1): step 2 replaces each maximal *run*
of characters outside `[a-z0-9-_]` with a single hyphen.  The flag records
whether the previous character belonged to such a run. -/
def replaceNonSlugRuns : Bool → List Char → List Char
  | _, [] => []
  | prevBad, c :: rest =>
      if isSlugChar c then c :: replaceNonSlugRuns false rest
      else if prevBad then replaceNonSlugRuns true rest
      else '-' :: replaceNonSlugRuns true rest

/-- The five-step reference definition of `slugify` given by the spec (§4.1):
lowercase, replace runs of bad characters by one hyphen, strip leading
non-letters, collapse repeated hyphens, strip a trailing hyphen. -/
def slugifySpec (l : List Char) : List Char :=
  stripTrailingHyphen (collapseHyphens false
    (dropLeadingNonAlpha (replaceNonSlugRuns false (l.map lowerChar))))

/-- No two adjacent hyphens. -/
def noDoubleHyphen : List Char → Bool
  | [] => true
  | [_] => true
  | a :: b :: t => !(a = '-' && b = '-') && noDoubleHyphen (b :: t)

/-- The head, if any, is a lowercase letter. -/
def headIsAlpha : List Char → Bool
  | [] => true
  | c :: _ => isLowerAlpha c

/-- The last character, if any, is not a hyphen. -/
def lastNotHyphen : List Char → Bool
  | [] => true
  | [c] => !(c = '-')
  | _ :: rest => lastNotHyphen rest

/-- One left-to-right scan replacing each non-overlapping occurrence of a
nonempty `pat` by `rep`. -/
def replaceAllAux (pat rep : List Char) : List Char → List Char
  | [] => []
  | c :: rest =>
      if pat.isPrefixOf (c :: rest) then
        rep ++ replaceAllAux pat rep (rest.drop (pat.length - 1))
      else c :: replaceAllAux pat rep rest
  termination_by s => s.length
  decreasing_by
  · simp only [List.length_cons, List.length_drop]
    omega
  · simp only [List.length_cons]
    omega

/-- Global replacement of the literal `pat` by `rep` (the patterns used by the
program are never empty; an empty pattern is mapped to the identity). -/
def replaceAll (pat rep s : List Char) : List Char :=
  if pat = [] then s else replaceAllAux pat rep s

/-- Does `pat` occur as a contiguous sublist? -/
def occursIn (pat : List Char) : List Char → Bool
  | [] => pat.isPrefixOf []
  | c :: rest => pat.isPrefixOf (c :: rest) || occursIn pat rest

/-- The template variables computed by `scaffold` (`src/template.ts:509`). -/
structure TemplateVars where
  projectName : List Char
  author : List Char
  license : List Char
  year : List Char

/-- The literal `\x7b\x7bprojectName\x7d\x7d`. -/
def projectNameToken : List Char := "\x7b\x7bprojectName\x7d\x7d".data

/-- The literal `\x7b\x7bauthor\x7d\x7d`. -/
def authorToken : List Char := "\x7b\x7bauthor\x7d\x7d".data

/-- The literal `\x7b\x7blicense\x7d\x7d`. -/
def licenseToken : List Char := "\x7b\x7blicense\x7d\x7d".data

/-- The literal `\x7b\x7byear\x7d\x7d`. -/
def yearToken : List Char := "\x7b\x7byear\x7d\x7d".data

/-- The template repository's own name, replaced by the project name as the
fifth and final substitution (`src/template.ts:45`). -/
def originName : List Char := "composable-ai-stack".data

/-- Function `replaceTemplateVars` from `src/template.ts`: the four placeholder
replacements followed by the origin-name replacement. -/
def replaceTemplateVars (content : List Char) (vars : TemplateVars) : List Char :=
  replaceAll originName vars.projectName
    (replaceAll yearToken vars.year
      (replaceAll licenseToken vars.license
        (replaceAll authorToken vars.author
          (replaceAll projectNameToken vars.projectName content))))

/-- JS truthiness of a possibly-undefined boolean. -/
def truthy : Option Bool → Bool
  | some true => true
  | _ => false

/-- JS truthiness of a possibly-undefined string. -/
def strTruthy : Option String → Bool
  | none => false
  | some s => !(s = "")

/-- The commander `opts` object consumed by `parseOptions`.  The flags
`all`, `minimal`, `force`, `dryRun` and the inverted `install`/`git` have CLI
defaults and are always present; the per-module flags may be absent (the CLI
defines no `--with-rag` option at all, so `withRag` is `none` on every CLI
invocation, but library callers can pass it). -/
structure RawOpts where
  dir : Option String
  author : Option String
  license : Option String
  withApi : Option Bool
  withWorker : Option Bool
  withEvals : Option Bool
  withConfig : Option Bool
  withRag : Option Bool
  all : Bool
  minimal : Bool
  force : Bool
  install : Bool
  git : Bool
  packageManager : String
  dryRun : Bool

/-- Type `Partial<CasOptions>` (`src/types.ts` via usage): every field may be
absent. -/
structure PartialCasOptions where
  projectName : Option String
  dir : Option String
  author : Option String
  license : Option String
  withApi : Option Bool
  withWorker : Option Bool
  withEvals : Option Bool
  withConfig : Option Bool
  withRag : Option Bool
  all : Option Bool
  minimal : Option Bool
  force : Option Bool
  noInstall : Option Bool
  noGit : Option Bool
  packageManager : Option String
  dryRun : Option Bool

/-- Function `parseOptions` from `src/args.ts`: preset conflict check, preset-based
resolution of the four `with*` flags (the source never reads or writes
`withRag`), then assembly of the partial configuration. -/
def parseOptions (projectName : Option String) (opts : RawOpts) :
    Except String PartialCasOptions :=
  if opts.all && opts.minimal then
    Except.error "Cannot use both --all and --minimal flags together"
  else
    let withApi := if opts.all then some true
      else if opts.minimal then some false else opts.withApi
    let withWorker := if opts.all then some true
      else if opts.minimal then some false else opts.withWorker
    let withEvals := if opts.all then some true
      else if opts.minimal then some false else opts.withEvals
    let withConfig := if opts.all then some true
      else if opts.minimal then some false else opts.withConfig
    Except.ok
      { projectName := if strTruthy projectName then projectName else none
        dir :=
          if strTruthy projectName then
            if strTruthy opts.dir then opts.dir else projectName
          else if strTruthy opts.dir then opts.dir
          else none
        author := if strTruthy opts.author then opts.author else none
        license := if strTruthy opts.license then opts.license else none
        withApi := withApi
        withWorker := withWorker
        withEvals := withEvals
        withConfig := withConfig
        withRag := none
        all := some opts.all
        minimal := some opts.minimal
        force := some opts.force
        noInstall := some (!opts.install)
        noGit := some (!opts.git)
        packageManager := some opts.packageManager
        dryRun := some opts.dryRun }

/-- Function `needsInteractiveMode` from `src/args.ts`: true without a project name, or
when none of `all`, `minimal`, `withApi`, `withWorker`, `withEvals`,
`withConfig` is truthy (the source does not consult `withRag`). -/
def needsInteractiveMode (o : PartialCasOptions) : Bool :=
  if !(strTruthy o.projectName) then true
  else if !(truthy o.all) && !(truthy o.minimal) && !(truthy o.withApi) &&
      !(truthy o.withWorker) && !(truthy o.withEvals) && !(truthy o.withConfig) then
    true
  else false

/-- The `opts` object of the `args.test.ts` case `handles --all preset`. -/
def allPresetRawOpts : RawOpts :=
  { dir := none, author := none, license := none, withApi := none,
    withWorker := none, withEvals := none, withConfig := none, withRag := none,
    all := true, minimal := false, force := false, install := true, git := true,
    packageManager := "bun", dryRun := false }

/-- The partial configuration of the `args.test.ts` case
`returns false when --with-rag is used`. -/
def withRagOnlyPartial : PartialCasOptions :=
  { projectName := some "my-project", dir := none, author := none,
    license := none, withApi := none, withWorker := none, withEvals := none,
    withConfig := none, withRag := some true, all := none, minimal := none,
    force := none, noInstall := none, noGit := none, packageManager := none,
    dryRun := none }

/-- Package managers (`src/types.ts` via `validatePackageManager`). -/
inductive PM
  | bun
  | npm
  | yarn
  | pnpm
deriving DecidableEq

/-- The command of `getInstallCommand` (`src/template.ts:66`); its argument
list is `["install"]` for every package manager. -/
def pmCmd : PM → String
  | .bun => "bun"
  | .npm => "npm"
  | .yarn => "yarn"
  | .pnpm => "pnpm"

/-- The resolved `CasOptions` consumed by `scaffold`. -/
structure CasOptions where
  projectName : String
  dir : String
  author : String
  license : String
  withApi : Bool
  withWorker : Bool
  withEvals : Bool
  withConfig : Bool
  withRag : Bool
  all : Bool
  minimal : Bool
  force : Bool
  noInstall : Bool
  noGit : Bool
  packageManager : PM
  dryRun : Bool

/-- The four optional components with fixed directories (`COMPONENT_DIRS`). -/
inductive Component
  | api
  | worker
  | evals
  | config
deriving DecidableEq

/-- Constant `COMPONENT_DIRS` from `src/template.ts:13`. -/
def componentDir : Component → String
  | .api => "apps/api"
  | .worker => "apps/worker"
  | .evals => "packages/evals"
  | .config => "packages/config"

/-- Outcomes of the external calls a scaffold run can make. -/
structure World where
  cwd : String
  online : Bool
  targetExists : Bool
  cloneExitCode : Nat
  cloneStderr : String
  componentDirExists : Component → Bool
  gitInitExitCode : Nat
  gitInitStderr : String
  installExitCode : Nat
  installStderr : String
  year : String

/-- The orchestration stages of §4.6 that mutate state (the connectivity
check, a read, is traced separately). -/
inductive Stage
  | removeExisting
  | clone
  | removeGitMeta
  | prune
  | subst
  | rag
  | gitInit
  | install
deriving DecidableEq

/-- Trace entries: the read-only network probe, each mutating filesystem or
process action, and each dry-run log line (tagged with its stage). -/
inductive Act
  | probeOnline
  | removeTarget
  | spawnClone
  | removeGitDir
  | removeComponent (c : Component)
  | substituteTemplates
  | writeRagModule
  | spawnGitInit
  | spawnInstall (pm : PM)
  | dryLog (s : Stage) (msg : String)
deriving DecidableEq

/-- Type `ScaffoldResult` from `src/types.ts` via usage: success flag, resolved
path, optional error list (`undefined` when empty). -/
structure ScaffoldResult where
  success : Bool
  projectPath : String
  errors : Option (List String)
deriving DecidableEq

/-- Error message of the failed connectivity check (`src/template.ts:431`). -/
def netErrMsg : String :=
  "No network connectivity. Please check your internet connection and try again."

/-- Error message of the target conflict (`src/template.ts:443`). -/
def existsErrMsg (dir : String) : String :=
  "Directory \"" ++ dir ++ "\" already exists. Use --force to overwrite."

/-- Error message of a failed clone (`src/template.ts:469`). -/
def cloneErrMsg (stderr : String) : String :=
  "Failed to clone template: " ++ stderr

/-- Warning recorded on a failed `git init` (`src/template.ts:574`). -/
def gitWarnMsg (stderr : String) : String :=
  "Warning: Failed to initialize git: " ++ stderr

/-- First warning recorded on a failed install (`src/template.ts:595`). -/
def installWarnMsg (stderr : String) : String :=
  "Warning: Failed to install dependencies: " ++ stderr

/-- Second warning recorded on a failed install (`src/template.ts:596`). -/
def installHintMsg (pm : PM) : String :=
  "You can manually run \"" ++ pmCmd pm ++ " install\" in the project directory."

/-- Function `componentsToRemove` from `src/template.ts:485`: one entry per unselected
component, in source order. -/
def componentsToRemove (o : CasOptions) : List Component :=
  (if o.withApi then [] else [Component.api]) ++
  (if o.withWorker then [] else [Component.worker]) ++
  (if o.withEvals then [] else [Component.evals]) ++
  (if o.withConfig then [] else [Component.config])

/-- Trace of the component-pruning stage (stage 5): dry runs log every
unselected component; real runs remove those whose directory exists. -/
def pruneTrace (o : CasOptions) (w : World) : List Act :=
  if o.dryRun then
    (componentsToRemove o).map
      (fun c => Act.dryLog .prune ("Would remove component: " ++ componentDir c))
  else ((componentsToRemove o).filter w.componentDirExists).map Act.removeComponent

/-- Trace of the variable-substitution stage (stage 6). -/
def substTrace (o : CasOptions) (w : World) : List Act :=
  if o.dryRun then
    [Act.dryLog .subst "Would replace template variables:",
     Act.dryLog .subst ("  projectName: " ++ o.projectName),
     Act.dryLog .subst ("  author: " ++ o.author),
     Act.dryLog .subst ("  license: " ++ o.license),
     Act.dryLog .subst ("  year: " ++ w.year)]
  else [Act.substituteTemplates]

/-- Trace of the optional RAG-module stage (stage 7). -/
def ragTrace (o : CasOptions) : List Act :=
  if o.withRag then
    if o.dryRun then
      [Act.dryLog .rag "Would scaffold RAG module in packages/rag",
       Act.dryLog .rag "Would create docker-compose.qdrant.yml",
       Act.dryLog .rag "Would add QDRANT_URL and QDRANT_API_KEY to .env.example",
       Act.dryLog .rag "Would append RAG documentation to README.md"]
    else [Act.writeRagModule]
  else []

/-- Trace of the git-initialization stage (stage 8). -/
def gitTrace (o : CasOptions) : List Act :=
  if o.noGit then []
  else if o.dryRun then [Act.dryLog .gitInit "Would initialize git repository"]
  else [Act.spawnGitInit]

/-- Warnings collected by the git-initialization stage. -/
def gitErrs (o : CasOptions) (w : World) : List String :=
  if o.noGit then []
  else if o.dryRun then []
  else if w.gitInitExitCode = 0 then []
  else [gitWarnMsg w.gitInitStderr]

/-- Trace of the dependency-installation stage (stage 9). -/
def installTrace (o : CasOptions) : List Act :=
  if o.noInstall then []
  else if o.dryRun then
    [Act.dryLog .install ("Would run: " ++ pmCmd o.packageManager ++ " install")]
  else [Act.spawnInstall o.packageManager]

/-- Warnings collected by the dependency-installation stage. -/
def installErrs (o : CasOptions) (w : World) : List String :=
  if o.noInstall then []
  else if o.dryRun then []
  else if w.installExitCode = 0 then []
  else [installWarnMsg w.installStderr, installHintMsg o.packageManager]

/-- Stages 4–9 of `scaffold`, reached once the clone stage has not failed:
`.git` removal, pruning, substitution, optional RAG module, git init,
install; `success` is `errors.length === 0` (`src/template.ts:604`). -/
def scaffoldTail (o : CasOptions) (w : World) (pp : String) (tr : List Act) :
    ScaffoldResult × List Act :=
  let errs := gitErrs o w ++ installErrs o w
  (⟨errs.isEmpty, pp, if errs.isEmpty then none else some errs⟩,
    tr ++
      (if o.dryRun then [Act.dryLog .removeGitMeta "Would remove .git directory"]
       else [Act.removeGitDir]) ++
      pruneTrace o w ++ substTrace o w ++ ragTrace o ++ gitTrace o ++
      installTrace o)

/-- Function `scaffold` from `src/template.ts`: connectivity check (skipped under
`dryRun`), target conflict check, clone with compensating rollback, then the
tail stages. -/
def scaffold (o : CasOptions) (w : World) : ScaffoldResult × List Act :=
  let pp := w.cwd ++ "/" ++ o.dir
  if !o.dryRun && !w.online then
    (⟨false, pp, some [netErrMsg]⟩, [Act.probeOnline])
  else
    let tr1 : List Act := if o.dryRun then [] else [Act.probeOnline]
    if w.targetExists && !o.force then
      (⟨false, pp, some [existsErrMsg o.dir]⟩, tr1)
    else
      let tr2 := tr1 ++
        (if w.targetExists then
          (if o.dryRun then
            [Act.dryLog .removeExisting ("Would remove existing directory: " ++ pp)]
           else [Act.removeTarget])
         else [])
      if o.dryRun then
        scaffoldTail o w pp (tr2 ++
          [Act.dryLog .clone
            ("Would clone template from https://github.com/yabasha/composable-ai-stack.git to "
              ++ pp)])
      else if w.cloneExitCode = 0 then
        scaffoldTail o w pp (tr2 ++ [Act.spawnClone])
      else
        (⟨false, pp, some [cloneErrMsg w.cloneStderr]⟩,
          tr2 ++ [Act.spawnClone, Act.removeTarget])

/-- Is a trace entry a filesystem or process mutation? -/
def isMutation : Act → Bool
  | .probeOnline => false
  | .dryLog _ _ => false
  | _ => true

/-- Is a trace entry a removal of the target directory? -/
def isRemoveTarget : Act → Bool
  | .removeTarget => true
  | _ => false

/-- The stage a dry-run log line belongs to. -/
def logStage : Act → Option Stage
  | .dryLog s _ => some s
  | _ => none

/-- The stage a mutating action belongs to. -/
def mutStage : Act → Option Stage
  | .removeTarget => some .removeExisting
  | .spawnClone => some .clone
  | .removeGitDir => some .removeGitMeta
  | .removeComponent _ => some .prune
  | .substituteTemplates => some .subst
  | .writeRagModule => some .rag
  | .spawnGitInit => some .gitInit
  | .spawnInstall _ => some .install
  | _ => none

/-- Collapse consecutive duplicates, giving the per-stage order of a trace. -/
def dedupConsec : List Stage → List Stage
  | [] => []
  | [s] => [s]
  | a :: b :: t => if a = b then dedupConsec (b :: t) else a :: dedupConsec (b :: t)

/-- A run in which everything succeeds except dependency installation. -/
def failingInstallOpts : CasOptions :=
  { projectName := "demo", dir := "demo", author := "", license := "MIT",
    withApi := false, withWorker := false, withEvals := false,
    withConfig := false, withRag := false, all := false, minimal := false,
    force := false, noInstall := false, noGit := true, packageManager := .bun,
    dryRun := false }

/-- A world that is online, has a free target, clones fine, but whose
`bun install` exits 1. -/
def failingInstallWorld : World :=
  { cwd := "/home/user", online := true, targetExists := false,
    cloneExitCode := 0, cloneStderr := "", componentDirExists := fun _ => true,
    gitInitExitCode := 0, gitInitStderr := "", installExitCode := 1,
    installStderr := "registry unreachable", year := "2026" }

/-- A world like `failingInstallWorld` whose target directory already
exists. -/
def existingTargetWorld : World :=
  { failingInstallWorld with targetExists := true }

/-- Predicate: `msg` contains the words `already exists`. -/
def mentionsAlreadyExists (msg : String) : Prop :=
  ∃ a b, msg = a ++ "already exists" ++ b

/-- A world whose clone exits non-zero. -/
def failingCloneWorld : World :=
  { cwd := "/home/user", online := true, targetExists := false,
    cloneExitCode := 1, cloneStderr := "fatal: could not read from remote",
    componentDirExists := fun _ => true, gitInitExitCode := 0,
    gitInitStderr := "", installExitCode := 0, installStderr := "",
    year := "2026" }

example : slugify "My App!".data = "my-app".data := by decide

example : slugify "9Lives".data = "lives".data := by decide

example : slugify "--a--b--".data = "a-b".data := by decide

example : validateProjectName "my-project".data = (true, none) := by decide

example : validateProjectName "".data = (false, some requiredMsg) := by decide

example : validateProjectName "My".data = (false, some patternMsg) := by decide

/-- C3. `validateProjectName` fails with the Required message on the empty
name, with the TooLong message on names longer than 214 characters, with the
InvalidPattern message on (nonempty, short-enough) names violating
`^[a-z][a-z0-9-_]*$`, and succeeds with no message otherwise. -/
theorem validateProjectName_cases (name : List Char) :
    (name = [] → validateProjectName name = (false, some requiredMsg)) ∧
    (name ≠ [] → name.length > 214 →
      validateProjectName name = (false, some tooLongMsg)) ∧
    (name ≠ [] → name.length ≤ 214 → matchesPattern name = false →
      validateProjectName name = (false, some patternMsg)) ∧
    (name ≠ [] → name.length ≤ 214 → matchesPattern name = true →
      validateProjectName name = (true, none)) := by
  refine ⟨fun h => by simp [validateProjectName, h], fun h hlen => ?_,
    fun h hlen hpat => ?_, fun h hlen hpat => ?_⟩
  · simp [validateProjectName, h, hlen]
  · simp [validateProjectName, h, Nat.not_lt.mpr hlen, hpat]
  · simp [validateProjectName, h, Nat.not_lt.mpr hlen, hpat]

/-- Witness for C3: the four cases evaluated at concrete names. -/
theorem validateProjectName_cases_witness :
    validateProjectName "my-project".data = (true, none) :=
  (validateProjectName_cases "my-project".data).2.2.2 (by decide) (by decide)
    (by decide)

/-- A lowercase letter is a slug character. -/
theorem isSlugChar_of_isLowerAlpha {c : Char} (h : isLowerAlpha c = true) :
    isSlugChar c = true := by
  simp [isSlugChar, h]

/-- A hyphen is not a lowercase letter. -/
theorem not_isLowerAlpha_hyphen : isLowerAlpha '-' = false := by decide

/-- Step 3 commutes with the character-wise replacement of step 2. -/
theorem dropLeadingNonAlpha_replaceNonSlug (l : List Char) :
    dropLeadingNonAlpha (replaceNonSlug l) = replaceNonSlug (dropLeadingNonAlpha l) := by
  induction l with
  | nil => rfl
  | cons c t ih =>
    by_cases hc : isLowerAlpha c = true
    · have hs : isSlugChar c = true := isSlugChar_of_isLowerAlpha hc
      simp [replaceNonSlug, dropLeadingNonAlpha, hs, hc]
    · have hc' : isLowerAlpha c = false := by simpa using hc
      by_cases hs : isSlugChar c = true
      · simpa [replaceNonSlug, dropLeadingNonAlpha, hs, hc'] using ih
      · have hs' : isSlugChar c = false := by simpa using hs
        simpa [replaceNonSlug, dropLeadingNonAlpha, hs', hc', not_isLowerAlpha_hyphen]
          using ih

/-- Step 3 commutes with the run-wise replacement of the spec's step 2.
Both flag values of `replaceNonSlugRuns` are handled at once. -/
theorem dropLeadingNonAlpha_replaceNonSlugRuns (l : List Char) :
    dropLeadingNonAlpha (replaceNonSlugRuns false l)
      = replaceNonSlugRuns false (dropLeadingNonAlpha l) ∧
    dropLeadingNonAlpha (replaceNonSlugRuns true l)
      = replaceNonSlugRuns false (dropLeadingNonAlpha l) := by
  induction l with
  | nil => exact ⟨rfl, rfl⟩
  | cons c t ih =>
    by_cases hc : isLowerAlpha c = true
    · have hs : isSlugChar c = true := isSlugChar_of_isLowerAlpha hc
      constructor <;> simp [replaceNonSlugRuns, dropLeadingNonAlpha, hs, hc]
    · have hc' : isLowerAlpha c = false := by simpa using hc
      by_cases hs : isSlugChar c = true
      · constructor <;>
          simpa [replaceNonSlugRuns, dropLeadingNonAlpha, hs, hc'] using ih.1
      · have hs' : isSlugChar c = false := by simpa using hs
        constructor <;>
          simpa [replaceNonSlugRuns, dropLeadingNonAlpha, hs', hc',
            not_isLowerAlpha_hyphen] using ih.2

/-- After collapsing hyphen runs, replacing bad characters one-by-one and
replacing bad runs by single hyphens agree (for matching flag states). -/
theorem collapseHyphens_replace_agree (l : List Char) :
    (∀ p, collapseHyphens p (replaceNonSlug l)
        = collapseHyphens p (replaceNonSlugRuns false l)) ∧
    collapseHyphens true (replaceNonSlug l)
      = collapseHyphens true (replaceNonSlugRuns true l) := by
  induction l with
  | nil => exact ⟨fun _ => rfl, rfl⟩
  | cons c t ih =>
    by_cases hs : isSlugChar c = true
    · by_cases hh : c = '-'
      · subst hh
        refine ⟨fun p => ?_, ?_⟩ <;>
          simp [replaceNonSlug, replaceNonSlugRuns, collapseHyphens, hs,
            ih.1 true]
      · refine ⟨fun p => ?_, ?_⟩ <;>
          simp [replaceNonSlug, replaceNonSlugRuns, collapseHyphens, hs, hh,
            ih.1 false]
    · have hs' : isSlugChar c = false := by simpa using hs
      refine ⟨fun p => ?_, ?_⟩ <;>
        simp [replaceNonSlug, replaceNonSlugRuns, collapseHyphens, hs',
          ih.2]

/-- C4. `slugify` equals the spec's five-step reference definition
`slugifySpec` on every input. -/
theorem slugify_eq_slugifySpec (l : List Char) : slugify l = slugifySpec l := by
  unfold slugify slugifySpec
  rw [dropLeadingNonAlpha_replaceNonSlug,
    (dropLeadingNonAlpha_replaceNonSlugRuns (l.map lowerChar)).1,
    (collapseHyphens_replace_agree (dropLeadingNonAlpha (l.map lowerChar))).1 false]

/-- A lowercase letter is not a hyphen. -/
theorem ne_hyphen_of_isLowerAlpha {c : Char} (h : isLowerAlpha c = true) :
    c ≠ '-' := by
  intro he
  subst he
  exact absurd h (by decide)

/-- A slug character is unchanged by lowercasing. -/
theorem lowerChar_of_isSlugChar {c : Char} (h : isSlugChar c = true) :
    lowerChar c = c := by
  have : ¬(65 ≤ c.toNat && c.toNat ≤ 90) = true := by
    simp only [isSlugChar, isLowerAlpha, Bool.or_eq_true, Bool.and_eq_true,
      decide_eq_true_eq] at h
    rcases h with ((⟨h1, h2⟩ | ⟨h1, h2⟩) | h1) | h1
    · simp only [Bool.and_eq_true, decide_eq_true_eq]
      omega
    · simp only [Bool.and_eq_true, decide_eq_true_eq]
      omega
    · subst h1; decide
    · subst h1; decide
  simp [lowerChar, this]

/-- All characters of `replaceNonSlug l` are slug characters. -/
theorem allSlug_replaceNonSlug (l : List Char) :
    (replaceNonSlug l).all isSlugChar = true := by
  induction l with
  | nil => rfl
  | cons c t ih =>
    by_cases hs : isSlugChar c = true
    · simp [replaceNonSlug, hs, ih]
    · have hs' : isSlugChar c = false := by simpa using hs
      simp [replaceNonSlug, hs', ih, show isSlugChar '-' = true by decide]

/-- Lemma: `dropWhile` preserves `List.all`. -/
theorem all_dropWhile {p q : Char → Bool} {l : List Char}
    (h : l.all q = true) : (l.dropWhile p).all q = true := by
  induction l with
  | nil => simp
  | cons c t ih =>
    simp only [List.all_cons, Bool.and_eq_true] at h
    by_cases hp : p c = true
    · simpa [List.dropWhile_cons_of_pos hp] using ih h.2
    · simpa [List.dropWhile_cons_of_neg hp, h.1] using h.2

/-- Lemma: `collapseHyphens` preserves `List.all isSlugChar`. -/
theorem allSlug_collapseHyphens {l : List Char} (b : Bool)
    (h : l.all isSlugChar = true) :
    (collapseHyphens b l).all isSlugChar = true := by
  induction l generalizing b with
  | nil => rfl
  | cons c t ih =>
    simp only [List.all_cons, Bool.and_eq_true] at h
    by_cases hc : c = '-'
    · subst hc
      cases b <;> simp [collapseHyphens, ih true h.2, isSlugChar]
    · simp [collapseHyphens, hc, h.1, ih false h.2]

/-- Lemma: `stripTrailingHyphen` preserves `List.all isSlugChar`. -/
theorem allSlug_stripTrailingHyphen {l : List Char}
    (h : l.all isSlugChar = true) :
    (stripTrailingHyphen l).all isSlugChar = true := by
  induction l with
  | nil => rfl
  | cons c t ih =>
    simp only [List.all_cons, Bool.and_eq_true] at h
    match t with
    | [] =>
      by_cases hc : c = '-'
      · simp [stripTrailingHyphen, hc]
      · simp [stripTrailingHyphen, hc, h.1]
    | d :: t' =>
      have := ih h.2
      simpa [stripTrailingHyphen, h.1] using this

/-- The head of a `dropWhile (fun c => !p c)` result satisfies `p`. -/
theorem headIsAlpha_dropLeadingNonAlpha (l : List Char) :
    headIsAlpha (dropLeadingNonAlpha l) = true := by
  induction l with
  | nil => rfl
  | cons c t ih =>
    by_cases hc : isLowerAlpha c = true
    · simp [dropLeadingNonAlpha, List.dropWhile_cons, hc, headIsAlpha]
    · have hc' : isLowerAlpha c = false := by simpa using hc
      simpa [dropLeadingNonAlpha, List.dropWhile_cons, hc'] using ih

/-- Lemma: `collapseHyphens false` preserves `headIsAlpha`. -/
theorem headIsAlpha_collapseHyphens {l : List Char}
    (h : headIsAlpha l = true) : headIsAlpha (collapseHyphens false l) = true := by
  match l with
  | [] => rfl
  | c :: t =>
    have hc : isLowerAlpha c = true := by simpa [headIsAlpha] using h
    have hne : c ≠ '-' := ne_hyphen_of_isLowerAlpha hc
    simp [collapseHyphens, hne, headIsAlpha, hc]

/-- Lemma: `stripTrailingHyphen` preserves `headIsAlpha`. -/
theorem headIsAlpha_stripTrailingHyphen {l : List Char}
    (h : headIsAlpha l = true) :
    headIsAlpha (stripTrailingHyphen l) = true := by
  match l with
  | [] => rfl
  | [c] =>
    by_cases hc : c = '-'
    · simp [stripTrailingHyphen, hc, headIsAlpha]
    · simpa [stripTrailingHyphen, hc, headIsAlpha] using h
  | c :: d :: t => simpa [stripTrailingHyphen, headIsAlpha] using h

/-- A non-hyphen head can be prepended to a double-hyphen-free list. -/
theorem noDoubleHyphen_cons_of_ne {c : Char} {l : List Char} (hc : c ≠ '-')
    (h : noDoubleHyphen l = true) : noDoubleHyphen (c :: l) = true := by
  match l with
  | [] => rfl
  | d :: t => simp [noDoubleHyphen, hc, h]

/-- A hyphen can be prepended when the head is not a hyphen. -/
theorem noDoubleHyphen_hyphen_cons {l : List Char}
    (hh : headIsAlpha l = true ∨ (∀ d t, l = d :: t → d ≠ '-'))
    (h : noDoubleHyphen l = true) : noDoubleHyphen ('-' :: l) = true := by
  match l with
  | [] => rfl
  | d :: t =>
    have hd : d ≠ '-' := by
      rcases hh with hh | hh
      · exact ne_hyphen_of_isLowerAlpha (by simpa [headIsAlpha] using hh)
      · exact hh d t rfl
    simp [noDoubleHyphen, hd, h]

/-- Lemma: `collapseHyphens` produces no double hyphens, and with the flag set its
output cannot begin with a hyphen. -/
theorem noDoubleHyphen_collapseHyphens (l : List Char) :
    noDoubleHyphen (collapseHyphens false l) = true ∧
    noDoubleHyphen (collapseHyphens true l) = true ∧
    (∀ d t, collapseHyphens true l = d :: t → d ≠ '-') := by
  induction l with
  | nil => exact ⟨rfl, rfl, fun d t h => by simp [collapseHyphens] at h⟩
  | cons c t ih =>
    by_cases hc : c = '-'
    · subst hc
      refine ⟨?_, ih.2.1, ?_⟩
      · simpa [collapseHyphens] using
          noDoubleHyphen_hyphen_cons (Or.inr ih.2.2) ih.2.1
      · intro d t' h
        simp only [collapseHyphens, if_pos rfl, if_pos rfl] at h
        exact ih.2.2 d t' h
    · refine ⟨?_, ?_, ?_⟩
      · simpa [collapseHyphens, hc] using noDoubleHyphen_cons_of_ne hc ih.1
      · simpa [collapseHyphens, hc] using noDoubleHyphen_cons_of_ne hc ih.1
      · intro d t' h
        simp only [collapseHyphens, if_neg hc] at h
        injection h with h1 h2
        exact h1 ▸ hc

/-- Lemma: `stripTrailingHyphen` preserves freedom from double hyphens. -/
theorem noDoubleHyphen_stripTrailingHyphen {l : List Char}
    (h : noDoubleHyphen l = true) :
    noDoubleHyphen (stripTrailingHyphen l) = true := by
  induction l with
  | nil => rfl
  | cons c t ih =>
    match t with
    | [] =>
      by_cases hc : c = '-' <;> simp [stripTrailingHyphen, hc, noDoubleHyphen]
    | d :: t' =>
      simp only [noDoubleHyphen, Bool.and_eq_true] at h
      have ht := ih h.2
      match t' with
      | [] =>
        by_cases hd : d = '-'
        · subst hd
          simp [stripTrailingHyphen, noDoubleHyphen]
        · simp only [stripTrailingHyphen, if_neg hd]
          simpa [noDoubleHyphen] using h.1
      | e :: t'' =>
        have hshape : stripTrailingHyphen (d :: e :: t'')
            = d :: stripTrailingHyphen (e :: t'') := rfl
        simp only [stripTrailingHyphen, hshape, noDoubleHyphen,
          Bool.and_eq_true] at ht ⊢
        exact ⟨h.1, ht⟩

/-- After stripping the trailing hyphen of a double-hyphen-free list, the last
character is not a hyphen. -/
theorem lastNotHyphen_stripTrailingHyphen {l : List Char}
    (h : noDoubleHyphen l = true) :
    lastNotHyphen (stripTrailingHyphen l) = true := by
  induction l with
  | nil => rfl
  | cons c t ih =>
    match t with
    | [] =>
      by_cases hc : c = '-' <;> simp [stripTrailingHyphen, hc, lastNotHyphen]
    | d :: t' =>
      simp only [noDoubleHyphen, Bool.and_eq_true] at h
      have ht := ih h.2
      match t' with
      | [] =>
        by_cases hd : d = '-'
        · subst hd
          have hc : (c = '-') = False := by simpa using h.1
          simp [stripTrailingHyphen, lastNotHyphen, hc]
        · simp [stripTrailingHyphen, if_neg hd, lastNotHyphen, hd]
      | e :: t'' =>
        simpa [stripTrailingHyphen, lastNotHyphen] using ht

/-- Lowercasing is the identity on a list of slug characters. -/
theorem mapLower_of_allSlug {l : List Char} (h : l.all isSlugChar = true) :
    l.map lowerChar = l := by
  induction l with
  | nil => rfl
  | cons c t ih =>
    simp only [List.all_cons, Bool.and_eq_true] at h
    simp [lowerChar_of_isSlugChar h.1, ih h.2]

/-- Lemma: `replaceNonSlug` is the identity on a list of slug characters. -/
theorem replaceNonSlug_of_allSlug {l : List Char} (h : l.all isSlugChar = true) :
    replaceNonSlug l = l := by
  induction l with
  | nil => rfl
  | cons c t ih =>
    simp only [List.all_cons, Bool.and_eq_true] at h
    simp [replaceNonSlug, h.1, ih h.2]

/-- Lemma: `dropLeadingNonAlpha` is the identity when the head is a letter. -/
theorem dropLeadingNonAlpha_of_headIsAlpha {l : List Char}
    (h : headIsAlpha l = true) : dropLeadingNonAlpha l = l := by
  match l with
  | [] => rfl
  | c :: t =>
    have hc : isLowerAlpha c = true := by simpa [headIsAlpha] using h
    simp [dropLeadingNonAlpha, List.dropWhile_cons, hc]

/-- Lemma: `collapseHyphens` is the identity on double-hyphen-free lists (for the
raised flag, additionally assuming the head is not a hyphen). -/
theorem collapseHyphens_of_noDoubleHyphen {l : List Char}
    (h : noDoubleHyphen l = true) :
    collapseHyphens false l = l ∧
    ((∀ d t, l = d :: t → d ≠ '-') → collapseHyphens true l = l) := by
  induction l with
  | nil => exact ⟨rfl, fun _ => rfl⟩
  | cons c t ih =>
    have ht : noDoubleHyphen t = true := by
      match t with
      | [] => rfl
      | d :: t' =>
        simp only [noDoubleHyphen, Bool.and_eq_true] at h
        exact h.2
    refine ⟨?_, fun hd => ?_⟩
    · by_cases hc : c = '-'
      · subst hc
        have htl : ∀ d t', t = d :: t' → d ≠ '-' := by
          intro d t' he hd
          subst he hd
          simp [noDoubleHyphen] at h
        simp [collapseHyphens, (ih ht).2 htl]
      · simp [collapseHyphens, hc, (ih ht).1]
    · have hc : c ≠ '-' := hd c t rfl
      simp [collapseHyphens, hc, (ih ht).1]

/-- Lemma: `stripTrailingHyphen` is the identity when the last character is not a
hyphen. -/
theorem stripTrailingHyphen_of_lastNotHyphen {l : List Char}
    (h : lastNotHyphen l = true) : stripTrailingHyphen l = l := by
  induction l with
  | nil => rfl
  | cons c t ih =>
    match t with
    | [] =>
      have hc : ¬(c = '-') := by simpa [lastNotHyphen] using h
      simp [stripTrailingHyphen, hc]
    | d :: t' =>
      have := ih (by simpa [lastNotHyphen] using h)
      simp [stripTrailingHyphen, this]

/-- The four invariants hold of every `slugify` output. -/
theorem slugify_invariants (l : List Char) :
    (slugify l).all isSlugChar = true ∧ headIsAlpha (slugify l) = true ∧
    noDoubleHyphen (slugify l) = true ∧ lastNotHyphen (slugify l) = true := by
  unfold slugify
  set m := dropLeadingNonAlpha (replaceNonSlug (l.map lowerChar)) with hm
  have hall : m.all isSlugChar = true := by
    rw [hm]
    exact all_dropWhile (allSlug_replaceNonSlug _)
  have hhead : headIsAlpha m = true := headIsAlpha_dropLeadingNonAlpha _
  refine ⟨allSlug_stripTrailingHyphen (allSlug_collapseHyphens false hall),
    headIsAlpha_stripTrailingHyphen (headIsAlpha_collapseHyphens hhead),
    noDoubleHyphen_stripTrailingHyphen (noDoubleHyphen_collapseHyphens m).1,
    lastNotHyphen_stripTrailingHyphen (noDoubleHyphen_collapseHyphens m).1⟩

/-- C5. `slugify` is idempotent on every input, and every output either
matches the naming grammar `^[a-z][a-z0-9-_]*$` or is empty. -/
theorem slugify_idempotent_and_grammar (l : List Char) :
    slugify (slugify l) = slugify l ∧
    (matchesPattern (slugify l) = true ∨ slugify l = []) := by
  obtain ⟨hall, hhead, hnd, hlast⟩ := slugify_invariants l
  constructor
  · show stripTrailingHyphen (collapseHyphens false
      (dropLeadingNonAlpha (replaceNonSlug ((slugify l).map lowerChar)))) = _
    rw [mapLower_of_allSlug hall, replaceNonSlug_of_allSlug hall,
      dropLeadingNonAlpha_of_headIsAlpha hhead,
      (collapseHyphens_of_noDoubleHyphen hnd).1,
      stripTrailingHyphen_of_lastNotHyphen hlast]
  · match hsl : slugify l with
    | [] => exact Or.inr rfl
    | c :: t =>
      rw [hsl] at hall hhead
      simp only [List.all_cons, Bool.and_eq_true] at hall
      exact Or.inl (by simp [matchesPattern, hall.2, headIsAlpha] at hhead ⊢; exact hhead)

/-- If `pat` does not occur in `s`, global replacement leaves `s` unchanged. -/
theorem replaceAllAux_of_not_occurs (pat rep s : List Char)
    (h : occursIn pat s = false) : replaceAllAux pat rep s = s := by
  induction s with
  | nil => simp [replaceAllAux]
  | cons c rest ih =>
    simp only [occursIn, Bool.or_eq_false_iff] at h
    rw [replaceAllAux, if_neg (by simp [h.1]), ih h.2]

/-- If `pat` does not occur in `s`, `replaceAll` leaves `s` unchanged. -/
theorem replaceAll_of_not_occurs (pat rep s : List Char)
    (h : occursIn pat s = false) : replaceAll pat rep s = s := by
  by_cases hp : pat = []
  · simp [replaceAll, hp]
  · simp [replaceAll, hp, replaceAllAux_of_not_occurs pat rep s h]

/-- Every list is a prefix of itself (boolean form). -/
theorem isPrefixOf_self (l : List Char) : l.isPrefixOf l = true := by
  induction l with
  | nil => rfl
  | cons c t ih => simp [List.isPrefixOf, ih]

/-- Replacing a nonempty pattern inside the pattern itself yields the
replacement. -/
theorem replaceAll_self (pat rep : List Char) (h : pat ≠ []) :
    replaceAll pat rep pat = rep := by
  match pat, h with
  | p :: ps, _ =>
    rw [replaceAll, if_neg (by simp), replaceAllAux,
      if_pos (isPrefixOf_self (p :: ps))]
    have h1 : List.drop ((p :: ps).length - 1) ps = [] :=
      List.drop_of_length_le (by simp)
    rw [h1, replaceAllAux_of_not_occurs (p :: ps) rep [] rfl, List.append_nil]

/-- C10. The origin-name replacement is applied last, after the four
placeholder replacements; consequently an occurrence of the origin name
injected through the author, license, or year variable is itself rewritten to
the project name. -/
theorem replaceTemplateVars_origin_applied_last :
    (∀ (vars : TemplateVars) (content : List Char),
      replaceTemplateVars content vars = replaceAll originName vars.projectName
        (replaceAll yearToken vars.year
          (replaceAll licenseToken vars.license
            (replaceAll authorToken vars.author
              (replaceAll projectNameToken vars.projectName content))))) ∧
    (∀ pn lic yr, replaceTemplateVars authorToken ⟨pn, originName, lic, yr⟩ = pn) ∧
    (∀ pn auth yr,
      replaceTemplateVars licenseToken ⟨pn, auth, originName, yr⟩ = pn) ∧
    (∀ pn auth lic,
      replaceTemplateVars yearToken ⟨pn, auth, lic, originName⟩ = pn) := by
  refine ⟨fun vars content => rfl, fun pn lic yr => ?_, fun pn auth yr => ?_,
    fun pn auth lic => ?_⟩
  · show replaceAll originName pn (replaceAll yearToken yr
      (replaceAll licenseToken lic (replaceAll authorToken originName
        (replaceAll projectNameToken pn authorToken)))) = pn
    rw [replaceAll_of_not_occurs projectNameToken pn authorToken (by decide),
      replaceAll_self authorToken originName (by decide),
      replaceAll_of_not_occurs licenseToken lic originName (by decide),
      replaceAll_of_not_occurs yearToken yr originName (by decide),
      replaceAll_self originName pn (by decide)]
  · show replaceAll originName pn (replaceAll yearToken yr
      (replaceAll licenseToken originName (replaceAll authorToken auth
        (replaceAll projectNameToken pn licenseToken)))) = pn
    rw [replaceAll_of_not_occurs projectNameToken pn licenseToken (by decide),
      replaceAll_of_not_occurs authorToken auth licenseToken (by decide),
      replaceAll_self licenseToken originName (by decide),
      replaceAll_of_not_occurs yearToken yr originName (by decide),
      replaceAll_self originName pn (by decide)]
  · show replaceAll originName pn (replaceAll yearToken originName
      (replaceAll licenseToken lic (replaceAll authorToken auth
        (replaceAll projectNameToken pn yearToken)))) = pn
    rw [replaceAll_of_not_occurs projectNameToken pn yearToken (by decide),
      replaceAll_of_not_occurs authorToken auth yearToken (by decide),
      replaceAll_of_not_occurs licenseToken lic yearToken (by decide),
      replaceAll_self yearToken originName (by decide),
      replaceAll_self originName pn (by decide)]

/-- C2. Evaluating `parseOptions` at the `--all` preset input of the
repository's own test `handles --all preset`: the four handled module flags
resolve to `true`, but `withRag` is never produced (it stays undefined and is
later coerced to `false`), contradicting the claim and the test, which expect
`withRag = true`. -/
theorem parseOptions_allPreset_drops_withRag :
    ∃ r, parseOptions (some "my-project") allPresetRawOpts = Except.ok r ∧
      r.withApi = some true ∧ r.withWorker = some true ∧
      r.withEvals = some true ∧ r.withConfig = some true ∧ r.withRag = none :=
  ⟨_, rfl, rfl, rfl, rfl, rfl, rfl⟩

/-- C6. Evaluating `needsInteractiveMode` at the input of the repository's own
test `returns false when --with-rag is used`: the function ignores `withRag`
and answers `true`, contradicting the claim and the test, which expect
`false`. -/
theorem needsInteractiveMode_ignores_withRag :
    needsInteractiveMode withRagOnlyPartial = true := by decide

/-- C1 (amended). In a real (non-dry) run, `success = true` iff no fatal
error occurred in stages 1–3 *and* git initialization and dependency
installation, when run, exited zero.  A non-zero exit from git init or from
install is recorded as a warning string in the result's error list and —
because `success` is computed as `errors.length === 0` — flips `success` to
`false`. -/
theorem scaffold_success_characterization (o : CasOptions) (w : World)
    (hdry : o.dryRun = false) :
    ((scaffold o w).1.success = true ↔
      (w.online = true ∧ (w.targetExists = false ∨ o.force = true) ∧
        w.cloneExitCode = 0 ∧ (o.noGit = true ∨ w.gitInitExitCode = 0) ∧
        (o.noInstall = true ∨ w.installExitCode = 0))) ∧
    (w.online = true → (w.targetExists = false ∨ o.force = true) →
      w.cloneExitCode = 0 → o.noGit = false → w.gitInitExitCode ≠ 0 →
      ∃ l, (scaffold o w).1.errors = some l ∧ gitWarnMsg w.gitInitStderr ∈ l) ∧
    (w.online = true → (w.targetExists = false ∨ o.force = true) →
      w.cloneExitCode = 0 → o.noInstall = false → w.installExitCode ≠ 0 →
      ∃ l, (scaffold o w).1.errors = some l ∧
        installWarnMsg w.installStderr ∈ l ∧
        installHintMsg o.packageManager ∈ l) := by
  refine ⟨?_, ?_, ?_⟩
  · cases honl : w.online <;> cases hte : w.targetExists <;>
      cases hf : o.force <;> by_cases hc : w.cloneExitCode = 0 <;>
      cases hng : o.noGit <;> by_cases hg : w.gitInitExitCode = 0 <;>
      cases hni : o.noInstall <;> by_cases hi : w.installExitCode = 0 <;>
      simp [scaffold, scaffoldTail, gitErrs, installErrs, hdry, honl, hte, hf,
        hc, hng, hg, hni, hi]
  · intro honl hex hc hng hg
    rcases hex with hex | hex
    · by_cases hi : w.installExitCode = 0 <;> cases hni : o.noInstall <;>
        simp [scaffold, scaffoldTail, gitErrs, installErrs, hdry, honl, hex,
          hc, hng, hg, hni, hi]
    · cases hte : w.targetExists <;> by_cases hi : w.installExitCode = 0 <;>
        cases hni : o.noInstall <;>
        simp [scaffold, scaffoldTail, gitErrs, installErrs, hdry, honl, hex,
          hte, hc, hng, hg, hni, hi]
  · intro honl hex hc hni hi
    rcases hex with hex | hex
    · by_cases hg : w.gitInitExitCode = 0 <;> cases hng : o.noGit <;>
        simp [scaffold, scaffoldTail, gitErrs, installErrs, hdry, honl, hex,
          hc, hng, hg, hni, hi]
    · cases hte : w.targetExists <;> by_cases hg : w.gitInitExitCode = 0 <;>
        cases hng : o.noGit <;>
        simp [scaffold, scaffoldTail, gitErrs, installErrs, hdry, honl, hex,
          hte, hc, hng, hg, hni, hi]

/-- Counterexample to C1 as stated: stages 1–3 all succeed and the install
failure is recorded as a warning string, yet `success` is `false` (the claim
says the warning must not flip `success`). -/
theorem scaffold_install_warning_flips_success :
    (scaffold failingInstallOpts failingInstallWorld).1.success = false ∧
    (scaffold failingInstallOpts failingInstallWorld).1.errors =
      some [installWarnMsg "registry unreachable", installHintMsg PM.bun] :=
  ⟨rfl, rfl⟩

/-- Witness for C1 (amended): the success characterisation evaluated at the
failing-install run. -/
theorem scaffold_success_characterization_witness :
    failingInstallOpts.dryRun = false ∧
    ((scaffold failingInstallOpts failingInstallWorld).1.success = true ↔
      (failingInstallWorld.online = true ∧
        (failingInstallWorld.targetExists = false ∨
          failingInstallOpts.force = true) ∧
        failingInstallWorld.cloneExitCode = 0 ∧
        (failingInstallOpts.noGit = true ∨
          failingInstallWorld.gitInitExitCode = 0) ∧
        (failingInstallOpts.noInstall = true ∨
          failingInstallWorld.installExitCode = 0))) :=
  ⟨rfl, (scaffold_success_characterization failingInstallOpts
    failingInstallWorld rfl).1⟩

/-- C7. With an existing target and no `force`, `scaffold` fails with a
single error mentioning `already exists`, performs no mutation, and runs no
later stage (the trace is at most the read-only network probe); with `force`
in a real run, the target is removed and the run proceeds to the clone
stage. -/
theorem scaffold_target_conflict (o : CasOptions) (w : World)
    (honl : w.online = true) (hex : w.targetExists = true) :
    (o.force = false →
      (scaffold o w).1.success = false ∧
      (∃ msg, (scaffold o w).1.errors = some [msg] ∧
        mentionsAlreadyExists msg) ∧
      (scaffold o w).2.filter isMutation = [] ∧
      (scaffold o w).2 = (if o.dryRun then [] else [Act.probeOnline])) ∧
    (o.force = true → o.dryRun = false →
      ∃ rest, (scaffold o w).2 =
        Act.probeOnline :: Act.removeTarget :: Act.spawnClone :: rest) := by
  constructor
  · intro hf
    have hmsg : mentionsAlreadyExists (existsErrMsg o.dir) := by
      refine ⟨"Directory \"" ++ o.dir ++ "\" ", ". Use --force to overwrite.", ?_⟩
      simp [existsErrMsg, String.append_assoc]
    cases hdry : o.dryRun <;>
      refine ⟨by simp [scaffold, honl, hex, hf, hdry],
        ⟨existsErrMsg o.dir, by simp [scaffold, honl, hex, hf, hdry], hmsg⟩,
        by simp [scaffold, honl, hex, hf, hdry, isMutation],
        by simp [scaffold, honl, hex, hf, hdry]⟩
  · intro hf hdry
    by_cases hc : w.cloneExitCode = 0 <;>
      simp [scaffold, scaffoldTail, honl, hex, hf, hdry, hc]

/-- Witness for C7: the conflict case evaluated on a concrete run (an
existing target, `force = false`). -/
theorem scaffold_target_conflict_witness :
    (existingTargetWorld.online = true ∧
      existingTargetWorld.targetExists = true ∧
      failingInstallOpts.force = false) ∧
    (scaffold failingInstallOpts existingTargetWorld).1.success = false ∧
    (scaffold failingInstallOpts existingTargetWorld).2.filter isMutation
      = [] ∧
    (scaffold failingInstallOpts existingTargetWorld).2 =
      (if failingInstallOpts.dryRun then [] else [Act.probeOnline]) :=
  ⟨⟨rfl, rfl, rfl⟩,
    ((scaffold_target_conflict failingInstallOpts existingTargetWorld
      rfl rfl).1 rfl).1,
    ((scaffold_target_conflict failingInstallOpts existingTargetWorld
      rfl rfl).1 rfl).2.2.1,
    ((scaffold_target_conflict failingInstallOpts existingTargetWorld
      rfl rfl).1 rfl).2.2.2⟩

/-- C8. In a real run whose clone exits non-zero (after passing the earlier
checks), `scaffold` removes the partial target, fails with the captured
stderr, and runs no later stage; and whenever the clone succeeds, the only
possible removal of the target is the force-overwrite removal of stage 2 —
no other stage performs a rollback. -/
theorem scaffold_clone_rollback (o : CasOptions) (w : World)
    (hdry : o.dryRun = false) :
    (w.online = true → (w.targetExists = false ∨ o.force = true) →
      w.cloneExitCode ≠ 0 →
      (scaffold o w).1.success = false ∧
      (scaffold o w).1.errors = some ["Failed to clone template: " ++ w.cloneStderr] ∧
      (scaffold o w).2 =
        (if w.targetExists then
          [Act.probeOnline, Act.removeTarget, Act.spawnClone, Act.removeTarget]
         else [Act.probeOnline, Act.spawnClone, Act.removeTarget])) ∧
    (w.cloneExitCode = 0 →
      (scaffold o w).2.countP isRemoveTarget =
        (if w.online = true ∧ w.targetExists = true ∧ o.force = true
         then 1 else 0)) := by
  constructor
  · intro honl hex hc
    rcases hex with hex | hex
    · refine ⟨?_, ?_, ?_⟩ <;>
        simp [scaffold, honl, hex, hc, hdry, cloneErrMsg]
    · cases hte : w.targetExists <;> refine ⟨?_, ?_, ?_⟩ <;>
        simp [scaffold, honl, hex, hte, hc, hdry, cloneErrMsg]
  · intro hc
    cases honl : w.online <;> cases hte : w.targetExists <;>
      cases hf : o.force <;>
      simp [scaffold, scaffoldTail, honl, hte, hf, hc, hdry, pruneTrace,
        substTrace, ragTrace, gitTrace, installTrace, isRemoveTarget,
        List.countP_append, List.countP_filter, List.countP_map]

/-- Witness for C8: the clone-failure case evaluated on a concrete run. -/
theorem scaffold_clone_rollback_witness :
    (failingInstallOpts.dryRun = false ∧ failingCloneWorld.online = true ∧
      failingCloneWorld.targetExists = false ∧
      failingCloneWorld.cloneExitCode ≠ 0) ∧
    ((scaffold failingInstallOpts failingCloneWorld).1.success = false ∧
      (scaffold failingInstallOpts failingCloneWorld).1.errors =
        some ["Failed to clone template: " ++ failingCloneWorld.cloneStderr] ∧
      (scaffold failingInstallOpts failingCloneWorld).2 =
        (if failingCloneWorld.targetExists then
          [Act.probeOnline, Act.removeTarget, Act.spawnClone, Act.removeTarget]
         else [Act.probeOnline, Act.spawnClone, Act.removeTarget])) :=
  ⟨⟨rfl, rfl, rfl, by decide⟩,
    (scaffold_clone_rollback failingInstallOpts failingCloneWorld rfl).1
      rfl (Or.inl rfl) (by decide)⟩

set_option maxHeartbeats 12000000 in
/-- C9. A dry run performs no filesystem or process mutation and spawns no
mutating external process, and — whenever the corresponding real run would
complete without failures — the stages of the dry-run descriptions equal, in
order, the stages of the real run's mutating actions. -/
theorem scaffold_dryRun_frame (o : CasOptions) (w : World) :
    (scaffold { o with dryRun := true } w).2.filter isMutation = [] ∧
    (w.online = true → w.cloneExitCode = 0 →
      (∀ c, w.componentDirExists c = true) →
      dedupConsec ((scaffold { o with dryRun := true } w).2.filterMap logStage) =
        dedupConsec
          ((scaffold { o with dryRun := false } w).2.filterMap mutStage)) := by
  obtain ⟨pn, dir, auth, lic, wa, ww, we, wc, wr, al, mi, fo, ni, ng, pm, dr⟩ := o
  constructor
  · cases hte : w.targetExists <;> cases fo <;> cases wr <;> cases ng <;>
      cases ni <;>
      simp [scaffold, scaffoldTail, pruneTrace, substTrace, ragTrace, gitTrace,
        installTrace, isMutation, hte, List.filter_append, List.filter_map]
  · intro honl hc hcomp
    cases hte : w.targetExists <;> cases fo <;> cases wa <;> cases ww <;>
      cases we <;> cases wc <;> cases wr <;> cases ng <;> cases ni <;>
      simp [scaffold, scaffoldTail, pruneTrace, substTrace, ragTrace, gitTrace,
        installTrace, componentsToRemove, honl, hc, hcomp, hte, logStage,
        mutStage, dedupConsec, List.filterMap_append]

/-- Witness for C9: the stage correspondence evaluated on a concrete run. -/
theorem scaffold_dryRun_frame_witness :
    (failingInstallWorld.online = true ∧
      failingInstallWorld.cloneExitCode = 0 ∧
      failingInstallWorld.componentDirExists Component.api = true ∧
      failingInstallWorld.componentDirExists Component.worker = true ∧
      failingInstallWorld.componentDirExists Component.evals = true ∧
      failingInstallWorld.componentDirExists Component.config = true) ∧
    dedupConsec ((scaffold { failingInstallOpts with dryRun := true }
        failingInstallWorld).2.filterMap logStage) =
      dedupConsec ((scaffold { failingInstallOpts with dryRun := false }
        failingInstallWorld).2.filterMap mutStage) :=
  ⟨⟨rfl, rfl, rfl, rfl, rfl, rfl⟩,
    (scaffold_dryRun_frame failingInstallOpts failingInstallWorld).2 rfl rfl
      (fun _ => rfl)⟩

end Cas
